import Mathlib

/-!
A shallow embedding of the YKOATH protocol engine of `ykoath-rs`
(`src/lib.rs`, `src/error.rs`, `src/calculate.rs`, `src/calculate_all.rs`,
`src/select.rs`).

Bytes are modelled as `Nat` (a byte is a value `< 256`; the places where the
Rust code truncates with an `as u8` cast carry an explicit `% 256`, and the
`u32` power that can overflow carries an explicit `% 2 ^ 32`).  Byte buffers
are `List Nat`.  Fallible Rust functions returning `Result<_, Error>` become
`Except Error _`.
-/

set_option autoImplicit false

/-- The error enum of `src/error.rs` (a superset of the enum in `src/lib.rs`,
which lacks `Utf8`).  `Pcsc` stands for any transport-layer failure; its
payload is irrelevant to the protocol engine and is dropped. -/
inductive Error where
  | Pcsc : Error
  | NoDevice : Error
  | InsufficientData : Error
  | UnknownCode : Nat → Error
  | UnexpectedValue : Nat → Error
  | NoSpace : Error
  | NoSuchObject : Error
  | AuthRequired : Error
  | WrongSyntax : Error
  | GenericError : Error
  | Utf8 : Error
  deriving DecidableEq, Repr

/-- Outcome of inspecting one status word, as matched by the `match code`
statement inside `YubiKey::transmit` (`src/lib.rs` lines 92-105):
`0x9000` breaks the loop with success, `0x6100..=0x61ff` continues the loop,
everything else aborts with an error. -/
inductive Outcome where
  | success : Outcome
  | continuePending : Outcome
  | err : Error → Outcome
  deriving DecidableEq, Repr

/-- The status-word mapper: the `match code` statement of
`YubiKey::transmit` (`src/lib.rs` lines 92-105), with its arms in source
order. -/
def mapCode (code : Nat) : Outcome :=
  if code = 0x9000 then .success
  else if 0x6100 ≤ code ∧ code ≤ 0x61ff then .continuePending
  else if code = 0x6a84 then .err .NoSpace
  else if code = 0x6984 then .err .NoSuchObject
  else if code = 0x6982 then .err .AuthRequired
  else if code = 0x6a80 then .err .WrongSyntax
  else if code = 0x6581 then .err .GenericError
  else .err (.UnknownCode code)

/-- The status-word extraction of `YubiKey::transmit` (`src/lib.rs` lines
88-91): two `Vec::pop` calls remove the last two bytes of the accumulated
buffer and `u16::from_le_bytes [last, lastButOne]` assembles the code, so the
code is `last + 256 * lastButOne`.  Popping an empty (or one-byte) buffer is
the `ok_or(Error::InsufficientData)` branch. -/
def popCode (buf : List Nat) : Except Error (List Nat × Nat) :=
  match buf.reverse with
  | y :: x :: rest => .ok (rest.reverse, y + 256 * x)
  | _ => .error .InsufficientData

/-- The `Lc` fix-up at the top of `YubiKey::transmit` (`src/lib.rs` lines
67-70): when the command buffer has at least 5 bytes, byte 4 is overwritten
with the body length `(buf.len() - 5) as u8`. -/
def fixLc (buf : List Nat) : List Nat :=
  if 5 ≤ buf.length then buf.set 4 ((buf.length - 5) % 256) else buf

/-- The fixed SEND REMAINING instruction frame of `YubiKey::transmit`
(`src/lib.rs` line 81). -/
def sendRemaining : List Nat := [0x00, 0xa5, 0x00, 0x00]

/-- One pass of the `loop` in `YubiKey::transmit` (`src/lib.rs` lines
73-106), with the external card modelled as the list of response frames it
returns to the successive `transmit` calls (an exhausted list is a transport
failure).  `cmd` is the (fixed-up) initial command, `mid` its length, `acc`
the accumulated buffer.  Each iteration sends `cmd` again when
`acc.length = mid` (the `mid == len` test) and the SEND REMAINING frame
otherwise, appends the card's frame, pops the status word off the end, and
dispatches on `mapCode`.  The first component records the frames sent to the
card, the second is the result: on success, the bytes after position `mid`. -/
def transmitGo (cmd : List Nat) (mid : Nat) :
    List (List Nat) → List Nat → List (List Nat) × Except Error (List Nat)
  | [], acc =>
    ([if acc.length = mid then cmd else sendRemaining], .error .Pcsc)
  | frame :: frames, acc =>
    let sent := if acc.length = mid then cmd else sendRemaining
    match popCode (acc ++ frame) with
    | .error e => ([sent], .error e)
    | .ok (acc', code) =>
      match mapCode code with
      | .success => ([sent], .ok (acc'.drop mid))
      | .continuePending =>
        let rec_result := transmitGo cmd mid frames acc'
        (sent :: rec_result.1, rec_result.2)
      | .err e => ([sent], .error e)

/-- `YubiKey::transmit` (`src/lib.rs` lines 66-107) against a synthetic
card that answers the successive transmissions with the frames of `frames`:
the result of the chained transmission loop. -/
def transmit (frames : List (List Nat)) (buf : List Nat) :
    Except Error (List Nat) :=
  (transmitGo (fixLc buf) (fixLc buf).length frames (fixLc buf)).2

/-- The sequence of frames `YubiKey::transmit` hands to the card during the
chained transmission loop, in order. -/
def transmitTrace (frames : List (List Nat)) (buf : List Nat) :
    List (List Nat) :=
  (transmitGo (fixLc buf) (fixLc buf).length frames (fixLc buf)).1

/-- The TLV encoder `YubiKey::push` (`src/lib.rs` lines 109-113): appends the
tag byte, then `data.len() as u8` (a wrapping cast, hence `% 256`), then the
value bytes.  Mirrors the three appends of the source. -/
def push (buf : List Nat) (tag : Nat) (data : List Nat) : List Nat :=
  let b1 := buf ++ [tag]
  let b2 := b1 ++ [data.length % 256]
  b2 ++ data

/-- The TLV decoder `YubiKey::pop` (`src/lib.rs` lines 115-125).  The second
component is the cursor after the call: the Rust `*buf = &buf[2 + len..]`
assignment happens only on the success path, so every error leaves the
cursor untouched.  `buf.first()` on an empty buffer and `buf.get(1)` /
`buf.get(2..2 + len)` past the end are the `ok_or(Error::InsufficientData)`
branches; a tag outside `tags` is the `Error::UnexpectedValue(tag)` branch. -/
def pop (buf : List Nat) (tags : List Nat) :
    Except Error (Nat × List Nat) × List Nat :=
  match buf with
  | [] => (.error .InsufficientData, buf)
  | tag :: rest =>
    if tag ∈ tags then
      match rest with
      | [] => (.error .InsufficientData, buf)
      | len :: rest2 =>
        if len ≤ rest2.length then
          (.ok (tag, rest2.take len), rest2.drop len)
        else (.error .InsufficientData, buf)
    else (.error (.UnexpectedValue tag), buf)

/-- `u32::from_be_bytes` on a list of bytes (big-endian fold). -/
def u32FromBeBytes (l : List Nat) : Nat :=
  l.foldl (fun a b => a * 256 + b) 0

/-- The calculate response of `src/calculate.rs` (digit count and numeric
response value). -/
structure CalcResponse where
  digits : Nat
  response : Nat
  deriving DecidableEq, Repr

/-- `TryFrom<&[u8]> for Response` of `src/calculate.rs` lines 11-26: the
first byte is the digit count, bytes 1..5 are the big-endian `u32` response;
a missing first byte (`value.first()`) or fewer than four following bytes
(`value.get(1..5)`) is `Error::InsufficientData`. -/
def responseTryFrom (value : List Nat) : Except Error CalcResponse :=
  match value with
  | [] => .error .InsufficientData
  | d :: rest =>
    if 4 ≤ rest.length then
      .ok ⟨d, u32FromBeBytes (rest.take 4)⟩
    else .error .InsufficientData

/-- The payload variant of one bulk entry, `calculate_all::Inner`
(`src/calculate_all.rs` lines 19-24 and `src/lib.rs` lines 274-279):
a calculate response (digit byte plus remaining response bytes), the
HOTP-only marker, or the touch-required marker. -/
inductive CalcAllInner where
  | Response : Nat → List Nat → CalcAllInner
  | Hotp : CalcAllInner
  | Touch : CalcAllInner
  deriving DecidableEq, Repr

/-- One bulk entry, `calculate_all::Response` (`src/calculate_all.rs` lines
5-8): the raw name bytes and the payload variant. -/
structure CalcAllResponse where
  name : List Nat
  inner : CalcAllInner
  deriving DecidableEq, Repr

/-- The `match tag` statement inside the bulk decoder
(`src/calculate_all.rs` lines 50-62): tags `0x75`/`0x76` split the payload
into the digit byte (`response.first()`, whose absence is
`Error::InsufficientData`) and the remaining response bytes, `0x77` is the
HOTP marker, `0x7c` the touch marker, and anything else the (unreachable)
`Error::UnexpectedValue` arm. -/
def entryStep (name : List Nat) (tag : Nat) (payload buf2 : List Nat) :
    Except Error (CalcAllResponse × List Nat) :=
  if tag = 0x75 ∨ tag = 0x76 then
    match payload with
    | [] => .error .InsufficientData
    | d :: r => .ok (⟨name, .Response d r⟩, buf2)
  else if tag = 0x77 then .ok (⟨name, .Hotp⟩, buf2)
  else if tag = 0x7c then .ok (⟨name, .Touch⟩, buf2)
  else .error (.UnexpectedValue tag)

/-- One pull of the bulk decoder returned by `YubiKey::calculate_all`
(`src/calculate_all.rs` lines 40-68, identical in structure to `src/lib.rs`
lines 204-232): `none` on an empty remaining buffer, otherwise pop the name
TLV (tag `0x71`), then the payload TLV (tag `0x76`/`0x75` by `truncate`,
`0x77`, or `0x7c`), and build the entry via `entryStep`.  On a failed pop
the partial cursor state is dropped, matching the convention that
consumption stops at the first error. -/
def pullEntry (truncate : Bool) (buf : List Nat) :
    Option (Except Error (CalcAllResponse × List Nat)) :=
  if buf.isEmpty then none
  else some (
    match pop buf [0x71] with
    | (.error e, _) => .error e
    | (.ok (_, name), buf1) =>
      match pop buf1 [if truncate then 0x76 else 0x75, 0x77, 0x7c] with
      | (.error e, _) => .error e
      | (.ok (tag, payload), buf2) => entryStep name tag payload buf2)

/-- Fuel-bounded iteration of `pullEntry`: the sequence of items the bulk
iterator yields, consumed with the stop-on-first-error convention of the
callers (`src/examples/oath.rs`). -/
def decodeSeq (truncate : Bool) :
    Nat → List Nat → List (Except Error CalcAllResponse)
  | 0, _ => []
  | fuel + 1, buf =>
    match pullEntry truncate buf with
    | none => []
    | some (.error e) => [.error e]
    | some (.ok (entry, rest)) => .ok entry :: decodeSeq truncate fuel rest

/-- Whether a byte is a UTF-8 continuation byte (`0x80..=0xbf`). -/
def isCont (b : Nat) : Bool := 0x80 ≤ b && b ≤ 0xbf

/-- UTF-8 validity of a byte sequence (the check behind
`std::str::from_utf8`, whose failure is `Error::Utf8` of `src/error.rs`):
ASCII bytes, and 2-, 3- and 4-byte sequences with the standard lead-byte
ranges, excluding overlong forms and surrogates. -/
def isValidUtf8 : List Nat → Bool
  | [] => true
  | b :: rest =>
    if b ≤ 0x7f then isValidUtf8 rest
    else if 0xc2 ≤ b && b ≤ 0xdf then
      match rest with
      | c :: r => isCont c && isValidUtf8 r
      | [] => false
    else if b = 0xe0 then
      match rest with
      | c1 :: c2 :: r => (0xa0 ≤ c1 && c1 ≤ 0xbf) && isCont c2 && isValidUtf8 r
      | _ => false
    else if (0xe1 ≤ b && b ≤ 0xec) || b = 0xee || b = 0xef then
      match rest with
      | c1 :: c2 :: r => isCont c1 && isCont c2 && isValidUtf8 r
      | _ => false
    else if b = 0xed then
      match rest with
      | c1 :: c2 :: r => (0x80 ≤ c1 && c1 ≤ 0x9f) && isCont c2 && isValidUtf8 r
      | _ => false
    else if b = 0xf0 then
      match rest with
      | c1 :: c2 :: c3 :: r =>
        (0x90 ≤ c1 && c1 ≤ 0xbf) && isCont c2 && isCont c3 && isValidUtf8 r
      | _ => false
    else if 0xf1 ≤ b && b ≤ 0xf3 then
      match rest with
      | c1 :: c2 :: c3 :: r => isCont c1 && isCont c2 && isCont c3 && isValidUtf8 r
      | _ => false
    else if b = 0xf4 then
      match rest with
      | c1 :: c2 :: c3 :: r =>
        (0x80 ≤ c1 && c1 ≤ 0x8f) && isCont c2 && isCont c3 && isValidUtf8 r
      | _ => false
    else false

/-- The character for one decimal digit (`'0'` + d). -/
def digitChar (d : Nat) : Char := Char.ofNat (0x30 + d)

/-- The decimal digits of a natural number, most significant first: the
behaviour of Rust's integer `Display`. -/
def toDigits (n : Nat) : List Char :=
  if n < 10 then [digitChar n]
  else toDigits (n / 10) ++ [digitChar (n % 10)]
  termination_by n
  decreasing_by exact Nat.div_lt_self (by omega) (by omega)

/-- The decimal rendering of a natural number (Rust's `{}` formatting of an
integer). -/
def decimalStr (n : Nat) : String := ⟨toDigits n⟩

/-- Rust's `{:0w$}` zero padding: left-pad with `'0'` up to width `w`; a
string already at least `w` long is unchanged. -/
def zeroPadStr (s : String) (w : Nat) : String :=
  if s.length < w then ⟨List.replicate (w - s.length) '0' ++ s.data⟩ else s

/-- `Display for Response` of `src/calculate.rs` lines 28-34:
`code = self.response % 10u32.pow(digits)` — the power is computed in `u32`,
hence the explicit `% 2 ^ 32` (for `digits ≥ 10` the Rust power overflows;
with overflow checks off it wraps, which is what the reduction models) —
then `write!(f, "{:01$}", code, digits)`. -/
def fmtResponse (digits response : Nat) : String :=
  zeroPadStr (decimalStr (response % (10 ^ digits % 2 ^ 32))) digits

/-! ## Helper lemmas -/

/-- The status-word extraction on a buffer with at least two bytes: the code
is the big-endian read of the final two bytes. -/
theorem popCode_append (l : List Nat) (x y : Nat) :
    popCode (l ++ [x, y]) = .ok (l, y + 256 * x) := by
  simp [popCode, List.reverse_append]

/-- Codes in `0x6100..=0x61ff` continue the transmission loop. -/
theorem mapCode_continue (c : Nat) (h1 : 0x6100 ≤ c) (h2 : c ≤ 0x61ff) :
    mapCode c = .continuePending := by
  unfold mapCode
  rw [if_neg (by omega), if_pos ⟨h1, h2⟩]

/-- The continuation frames of a synthetic chained exchange: each carries
its payload followed by the two bytes of its (16-bit) status code in wire
order, high byte first. -/
def mkFrames (ps : List (List Nat)) (codes : List Nat) : List (List Nat) :=
  (ps.zip codes).map fun pc => pc.1 ++ [pc.2 / 256, pc.2 % 256]

/-- Joint characterisation of the transmission loop on a chain of
continuation frames closed by one success frame: the trace of commands sent
to the card, and the accumulated result. -/
theorem transmitGo_chain (cmd : List Nat) (mid : Nat) :
    ∀ (ps : List (List Nat)) (codes : List Nat) (pN acc : List Nat),
      ps.length = codes.length →
      (∀ c ∈ codes, 0x6100 ≤ c ∧ c ≤ 0x61ff) →
      transmitGo cmd mid (mkFrames ps codes ++ [pN ++ [0x90, 0x00]]) acc =
        ((List.range (ps.length + 1)).map fun i =>
            if (acc ++ (ps.take i).flatten).length = mid then cmd
            else sendRemaining,
          .ok ((acc ++ ps.flatten ++ pN).drop mid)) := by
  intro ps
  induction ps with
  | nil =>
    intro codes pN acc hlen hcodes
    have hc : codes = [] := by
      cases codes with
      | nil => rfl
      | cons c cs => simp at hlen
    subst hc
    rw [show mkFrames [] [] = [] from rfl, List.nil_append]
    unfold transmitGo
    rw [show acc ++ (pN ++ [0x90, 0x00]) = (acc ++ pN) ++ [0x90, 0x00] by
        simp, popCode_append]
    simp [show mapCode (0x00 + 256 * 0x90) = .success from rfl]
  | cons p ps ih =>
    intro codes pN acc hlen hcodes
    cases codes with
    | nil => simp at hlen
    | cons c cs =>
      obtain ⟨hc1, hc2⟩ := hcodes c (by simp)
      have hframes :
          mkFrames (p :: ps) (c :: cs) =
            (p ++ [c / 256, c % 256]) :: mkFrames ps cs := rfl
      rw [hframes, List.cons_append]
      unfold transmitGo
      rw [show acc ++ (p ++ [c / 256, c % 256]) =
            (acc ++ p) ++ [c / 256, c % 256] by simp, popCode_append,
        Nat.mod_add_div c 256]
      dsimp only
      rw [mapCode_continue c hc1 hc2]
      dsimp only
      rw [ih cs pN (acc ++ p) (by simpa using hlen)
        (fun c hc => hcodes c (by simp [hc]))]
      rw [Prod.mk.injEq]
      dsimp only
      constructor
      · conv_rhs => rw [List.range_succ_eq_map, List.map_cons, List.map_map]
        rw [List.cons.injEq]
        constructor
        · simp
        · apply List.map_congr_left
          intro i _
          simp [Function.comp, List.append_assoc]
      · simp

/-! ## Claim theorems -/

/-- C1: for a transport returning N frames whose first N-1 carry a status
word in `0x6100..=0x61ff` and whose last carries `0x9000`, the transmit
operation returns `Ok` with the payloads of all N frames concatenated in
arrival order. -/
theorem transmit_chain_concat (cmd : List Nat) (ps : List (List Nat))
    (codes : List Nat) (pN : List Nat)
    (hlen : ps.length = codes.length)
    (hcodes : ∀ c ∈ codes, 0x6100 ≤ c ∧ c ≤ 0x61ff) :
    transmit (mkFrames ps codes ++ [pN ++ [0x90, 0x00]]) cmd =
      .ok (ps.flatten ++ pN) := by
  unfold transmit
  rw [transmitGo_chain _ _ ps codes pN _ hlen hcodes]
  simp

/-- Witness for C1: a two-frame exchange (one continuation frame with
payload `[1, 2]` and status `0x6105`, one success frame with payload `[3]`)
concatenates to `[1, 2, 3]`. -/
theorem transmit_chain_concat_witness :
    transmit (mkFrames [[1, 2]] [0x6105] ++ [[3] ++ [0x90, 0x00]])
        [0x00, 0xa2, 0x00, 0x00, 0x00] =
      .ok [1, 2, 3] :=
  transmit_chain_concat [0x00, 0xa2, 0x00, 0x00, 0x00] [[1, 2]] [0x6105] [3]
    (by decide) (by decide)

/-- C5 counterexample: with a first (continuation) frame carrying an empty
payload, the loop re-transmits the original command — not the fixed
SEND REMAINING frame — after the pending status word, because the
accumulated length still equals the command length. -/
theorem transmit_resend_counterexample :
    transmitTrace [[0x61, 0x00], [0x90, 0x00]] [0x00, 0xa2, 0x00, 0x00, 0x00] =
      [[0x00, 0xa2, 0x00, 0x00, 0x00], [0x00, 0xa2, 0x00, 0x00, 0x00]] ∧
    [0x00, 0xa2, 0x00, 0x00, 0x00] ≠ sendRemaining :=
  ⟨rfl, by decide⟩

/-- C5 amended: in the chained transmission loop, the i-th transmitted
frame (0-based; frame 0 is the initial transmission) is the fixed
SEND REMAINING frame `[0x00, 0xa5, 0x00, 0x00]` exactly when some earlier
frame carried a nonempty payload; while every prior payload is empty, the
(length-fixed) original command is transmitted instead. -/
theorem transmit_trace_spec (cmd : List Nat) (ps : List (List Nat))
    (codes : List Nat) (pN : List Nat)
    (hlen : ps.length = codes.length)
    (hcodes : ∀ c ∈ codes, 0x6100 ≤ c ∧ c ≤ 0x61ff) :
    transmitTrace (mkFrames ps codes ++ [pN ++ [0x90, 0x00]]) cmd =
      (List.range (ps.length + 1)).map fun i =>
        if (ps.take i).flatten = [] then fixLc cmd else sendRemaining := by
  unfold transmitTrace
  rw [transmitGo_chain _ _ ps codes pN _ hlen hcodes]
  dsimp only
  apply List.map_congr_left
  intro i _
  rcases h : (ps.take i).flatten with _ | ⟨a, l⟩
  · simp [h]
  · rw [if_neg (by simp [h]), if_neg (by simp [h])]

/-- Witness for C5 amended: after an empty-payload continuation frame the
original command is re-sent; after a nonempty one the SEND REMAINING frame
is sent. -/
theorem transmit_trace_spec_witness :
    transmitTrace
        (mkFrames [[], [7]] [0x6100, 0x6101] ++ [[] ++ [0x90, 0x00]])
        [0x00, 0xa4, 0x00, 0x00, 0x00] =
      [[0x00, 0xa4, 0x00, 0x00, 0x00], [0x00, 0xa4, 0x00, 0x00, 0x00],
        [0x00, 0xa5, 0x00, 0x00]] :=
  (transmit_trace_spec [0x00, 0xa4, 0x00, 0x00, 0x00] [[], [7]]
    [0x6100, 0x6101] [] (by decide) (by decide)).trans (by decide)

/-- C6 counterexample: the loop accepts the wire trailer `0x90 0x00` as
success, which is the big-endian read `0x9000`; the little-endian read of
those two bytes claimed by the spec is `0x0090`, which the mapper would
reject as an unknown code. -/
theorem status_word_endianness_counterexample :
    transmit [[0x90, 0x00]] [] = .ok [] ∧
    popCode [0x90, 0x00] = .ok ([], 0x9000) ∧
    0x90 + 256 * 0x00 ≠ 0x9000 ∧
    mapCode (0x90 + 256 * 0x00) = .err (.UnknownCode 0x90) :=
  ⟨rfl, rfl, by decide, rfl⟩

/-- C6 amended: for every response frame of length at least 2, the status
word handed to the mapper is the big-endian 16-bit read of the frame's
final two bytes: `(last byte) + 256 * (last-but-one byte)`. -/
theorem popCode_big_endian (l : List Nat) (x y : Nat) :
    popCode (l ++ [x, y]) = .ok (l, y + 256 * x) :=
  popCode_append l x y

/-- C2: the status-word mapper is total and matches the fixed table:
`0x9000` to Success, `0x6100..=0x61ff` to ContinuePending, `0x6a84` to
NoSpace, `0x6984` to NoSuchObject, `0x6982` to AuthRequired, `0x6a80` to
WrongSyntax, `0x6581` to GenericError, and everything else to UnknownCode
carrying the raw code (being a function, it yields exactly one outcome for
each code). -/
theorem mapCode_totality (code : Nat) :
    (mapCode code = .success ↔ code = 0x9000) ∧
    (mapCode code = .continuePending ↔ 0x6100 ≤ code ∧ code ≤ 0x61ff) ∧
    (mapCode code = .err .NoSpace ↔ code = 0x6a84) ∧
    (mapCode code = .err .NoSuchObject ↔ code = 0x6984) ∧
    (mapCode code = .err .AuthRequired ↔ code = 0x6982) ∧
    (mapCode code = .err .WrongSyntax ↔ code = 0x6a80) ∧
    (mapCode code = .err .GenericError ↔ code = 0x6581) ∧
    (code ≠ 0x9000 → ¬(0x6100 ≤ code ∧ code ≤ 0x61ff) → code ≠ 0x6a84 →
      code ≠ 0x6984 → code ≠ 0x6982 → code ≠ 0x6a80 → code ≠ 0x6581 →
      mapCode code = .err (.UnknownCode code)) := by
  unfold mapCode
  split_ifs with h1 h2 h3 h4 h5 h6 h7 <;>
    refine ⟨?_, ?_, ?_, ?_, ?_, ?_, ?_, ?_⟩ <;> simp_all <;> omega

/-- Witness for C2: the unknown-code fallback at `0x1234`. -/
theorem mapCode_totality_witness :
    mapCode 0x1234 = .err (.UnknownCode 0x1234) :=
  (mapCode_totality 0x1234).2.2.2.2.2.2.2 (by decide) (by decide) (by decide)
    (by decide) (by decide) (by decide) (by decide)

/-- C7: on a non-empty buffer whose first byte is outside the expected-tag
set, the TLV decoder fails with `UnexpectedValue` carrying that byte and
leaves the cursor untouched. -/
theorem pop_unexpected_tag (buf tags : List Nat) (t : Nat)
    (hhead : buf.head? = some t) (hmem : t ∉ tags) :
    pop buf tags = (.error (.UnexpectedValue t), buf) := by
  cases buf with
  | nil => simp at hhead
  | cons b rest =>
    rw [List.head?_cons, Option.some.injEq] at hhead
    subst hhead
    simp [pop, hmem]

/-- Witness for C7: tag `0x33` against expected set `{0x71}`. -/
theorem pop_unexpected_tag_witness :
    pop [0x33, 1, 2] [0x71] = (.error (.UnexpectedValue 0x33), [0x33, 1, 2]) :=
  pop_unexpected_tag [0x33, 1, 2] [0x71] 0x33 rfl (by decide)

/-- C3: encoding a tag and a value of length at most 255 with `push` and
decoding the result with `pop` (the tag being in the expected set) returns
exactly that tag and value and advances the cursor past exactly the
`2 + length` encoded bytes (the cursor lands on whatever follows them). -/
theorem push_pop_roundtrip (tag : Nat) (value : List Nat) (tags : List Nat)
    (hlen : value.length ≤ 255) (htag : tag ∈ tags) (rest : List Nat) :
    pop (push [] tag value ++ rest) tags = (.ok (tag, value), rest) := by
  have hmod : value.length % 256 = value.length := Nat.mod_eq_of_lt (by omega)
  have hpush : push [] tag value ++ rest =
      tag :: value.length :: (value ++ rest) := by
    simp [push, hmod]
  rw [hpush]
  simp only [pop, if_pos htag]
  rw [if_pos (by simp), List.take_left, List.drop_left]

/-- Witness for C3: tag `0x74`, value `[1, 2, 3]`, trailing bytes `[9, 9]`. -/
theorem push_pop_roundtrip_witness :
    pop (push [] 0x74 [1, 2, 3] ++ [9, 9]) [0x74, 0x71] =
      (.ok (0x74, [1, 2, 3]), [9, 9]) :=
  push_pop_roundtrip 0x74 [1, 2, 3] [0x74, 0x71] (by decide) (by decide) [9, 9]

/-- C4: truncated-buffer safety of the TLV decoder and the
calculate-response decoder.  A successful `pop` read exactly the bytes
`tag :: length :: value` present in the buffer (so no access goes past the
buffer); whenever the buffer is shorter than the tag byte, the length byte
or the declared value length requires, the result is `InsufficientData`
with the cursor untouched.  Likewise `responseTryFrom` succeeds only on
buffers of length at least 5 and returns `InsufficientData` on shorter
ones. -/
theorem decode_truncation_safe (buf tags : List Nat) :
    (∀ t v rest, pop buf tags = (.ok (t, v), rest) →
        buf = t :: v.length :: (v ++ rest) ∧
        buf.length = 2 + v.length + rest.length) ∧
    (∀ t len rest2, buf = t :: len :: rest2 → t ∈ tags →
        rest2.length < len →
        pop buf tags = (.error .InsufficientData, buf)) ∧
    (∀ t, buf = [t] → t ∈ tags →
        pop buf tags = (.error .InsufficientData, buf)) ∧
    (buf = [] → pop buf tags = (.error .InsufficientData, buf)) ∧
    (∀ value r, responseTryFrom value = .ok r → 5 ≤ value.length) ∧
    (∀ value, value.length < 5 →
        responseTryFrom value = .error .InsufficientData) := by
  refine ⟨?_, ?_, ?_, ?_, ?_, ?_⟩
  · intro t v rest h
    match buf with
    | [] => simp [pop] at h
    | [tag] => simp only [pop] at h; split_ifs at h <;> simp at h
    | tag :: len :: rest2 =>
      simp only [pop] at h
      split_ifs at h with h1 h2 <;> simp only [Prod.mk.injEq] at h
      · obtain ⟨hok, hcur⟩ := h
        rw [Except.ok.injEq, Prod.mk.injEq] at hok
        obtain ⟨ht, hv⟩ := hok
        subst ht; subst hv; subst hcur
        have hlen : (rest2.take len).length = len := by
          simp [List.length_take, Nat.min_eq_left h2]
        refine ⟨by rw [hlen, List.take_append_drop], ?_⟩
        simp [List.length_take, List.length_drop]
        omega
      · exact absurd h.1 (by simp)
      · exact absurd h.1 (by simp)
  · intro t len rest2 hbuf htag hshort
    subst hbuf
    simp only [pop, if_pos htag]
    rw [if_neg (by omega)]
  · intro t hbuf htag
    subst hbuf
    simp [pop, htag]
  · intro hbuf
    subst hbuf
    simp [pop]
  · intro value r h
    match value with
    | [] => simp [responseTryFrom] at h
    | d :: rest =>
      by_cases h4 : 4 ≤ rest.length
      · simp only [List.length_cons]
        omega
      · simp [responseTryFrom, h4] at h
  · intro value hshort
    match value with
    | [] => simp [responseTryFrom]
    | d :: rest =>
      simp only [responseTryFrom]
      rw [if_neg (by simp at hshort; omega)]

/-- Witness for C4: a declared length of 5 with only one value byte present
fails with `InsufficientData` and leaves the cursor unchanged; a 4-byte
calculate payload also fails with `InsufficientData`. -/
theorem decode_truncation_safe_witness :
    pop [0x71, 5, 1] [0x71] = (.error .InsufficientData, [0x71, 5, 1]) ∧
    responseTryFrom [6, 0, 0, 4] = .error .InsufficientData :=
  ⟨(decode_truncation_safe [0x71, 5, 1] [0x71]).2.1 0x71 5 [1] rfl
      (by decide) (by decide),
    (decode_truncation_safe [] []).2.2.2.2.2 [6, 0, 0, 4] (by decide)⟩

/-- C10: the TLV encoder is total, also on oversized values: it always
appends exactly one tag byte, one length byte equal to the value length
reduced modulo 256, and all value bytes; for a value longer than 255 bytes
the written length byte therefore disagrees with the number of value bytes
actually appended. -/
theorem push_total_oversized (buf : List Nat) (tag : Nat) (data : List Nat) :
    (push buf tag data).length = buf.length + 2 + data.length ∧
    (push buf tag data)[buf.length + 1]? = some (data.length % 256) ∧
    (push buf tag data).drop (buf.length + 2) = data ∧
    (255 < data.length → data.length % 256 ≠ data.length) := by
  have hsplit : push buf tag data =
      (buf ++ [tag, data.length % 256]) ++ data := by
    simp [push]
  refine ⟨?_, ?_, ?_, ?_⟩
  · simp only [push, List.length_append, List.length_cons, List.length_nil]
  · have h1 : buf.length + 1 < (buf ++ [tag, data.length % 256]).length := by
      simp only [List.length_append, List.length_cons, List.length_nil]
      omega
    have h2 : buf.length ≤ buf.length + 1 := Nat.le_succ _
    rw [hsplit, List.getElem?_append_left h1, List.getElem?_append_right h2]
    simp
  · have h3 : buf.length + 2 = (buf ++ [tag, data.length % 256]).length := by
      simp only [List.length_append, List.length_cons, List.length_nil]
    rw [hsplit, h3, List.drop_left]
  · intro hbig
    have : data.length % 256 < 256 := Nat.mod_lt _ (by omega)
    omega

/-- Witness for C10: a 300-byte value is encoded whole, with length byte
`300 % 256 = 44` disagreeing with the 300 value bytes appended. -/
theorem push_total_oversized_witness :
    (push [] 0x71 (List.replicate 300 7)).length = 302 ∧
    (push [] 0x71 (List.replicate 300 7))[1]? = some 44 ∧
    (push [] 0x71 (List.replicate 300 7)).drop 2 = List.replicate 300 7 ∧
    (44 : Nat) ≠ 300 := by
  obtain ⟨h1, h2, h3, h4⟩ := push_total_oversized [] 0x71 (List.replicate 300 7)
  have hrep : (List.replicate 300 (7 : Nat)).length = 300 :=
    List.length_replicate 300 7
  rw [hrep] at h1 h2 h4
  exact ⟨h1.trans (by norm_num), h2, h3, h4 (by norm_num)⟩

/-- The TLV decoder produces only the `InsufficientData` and
`UnexpectedValue` errors. -/
theorem pop_error_cases (buf tags : List Nat) (e : Error) (cur : List Nat)
    (h : pop buf tags = (.error e, cur)) :
    e = .InsufficientData ∨ ∃ t, e = .UnexpectedValue t := by
  match buf with
  | [] =>
    simp only [pop, Prod.mk.injEq, Except.error.injEq] at h
    exact Or.inl h.1.symm
  | [tag] =>
    simp only [pop] at h
    split_ifs at h with h1 <;>
      simp only [Prod.mk.injEq, Except.error.injEq] at h
    · exact Or.inl h.1.symm
    · exact Or.inr ⟨tag, h.1.symm⟩
  | tag :: len :: rest2 =>
    simp only [pop] at h
    split_ifs at h with h1 h2
    · simp at h
    · simp only [Prod.mk.injEq, Except.error.injEq] at h
      exact Or.inl h.1.symm
    · simp only [Prod.mk.injEq, Except.error.injEq] at h
      exact Or.inr ⟨tag, h.1.symm⟩

/-- C8 counterexample: a bulk entry whose name TLV holds the invalid UTF-8
byte `0xff` is still yielded as `Ok`, carrying the raw bytes — the pull
does not fail with a text-decoding error. -/
theorem calculate_all_raw_name_counterexample :
    pullEntry true [0x71, 1, 0xff, 0x77, 0x00] =
      some (.ok (⟨[0xff], .Hotp⟩, [])) ∧
    isValidUtf8 [0xff] = false :=
  ⟨rfl, by decide⟩

/-- C8 amended: the bulk decoder performs no text validation at all — no
pull ever yields the text-decoding failure `Error.Utf8` (names are handed
back as raw bytes) — and a successful pull prepends its entry to the
sequence of the remaining buffer, so entries yielded earlier are unaffected
by later failures. -/
theorem calculate_all_no_text_validation :
    (∀ (t : Bool) (buf : List Nat)
        (r : Except Error (CalcAllResponse × List Nat)),
        pullEntry t buf = some r → r ≠ .error .Utf8) ∧
    (∀ (t : Bool) (fuel : Nat) (buf : List Nat) (e : CalcAllResponse)
        (rest : List Nat),
        pullEntry t buf = some (.ok (e, rest)) →
        decodeSeq t (fuel + 1) buf = .ok e :: decodeSeq t fuel rest) := by
  constructor
  · intro t buf r h
    by_cases hb : buf.isEmpty
    · unfold pullEntry at h
      rw [if_pos hb] at h
      simp at h
    · rcases h1 : pop buf [0x71] with ⟨res1, cur1⟩
      rcases res1 with e1 | ⟨tg, name⟩
      · have hpull : pullEntry t buf = some (.error e1) := by
          unfold pullEntry
          rw [if_neg hb, h1]
        rw [hpull, Option.some.injEq] at h
        subst h
        rcases pop_error_cases _ _ _ _ h1 with h2 | ⟨t2, h2⟩ <;>
          subst h2 <;> simp
      · rcases h2 : pop cur1 [if t then 0x76 else 0x75, 0x77, 0x7c] with
          ⟨res2, cur2⟩
        rcases res2 with e2 | ⟨tag2, payload⟩
        · have hpull : pullEntry t buf = some (.error e2) := by
            unfold pullEntry
            rw [if_neg hb, h1]
            dsimp only
            rw [h2]
          rw [hpull, Option.some.injEq] at h
          subst h
          rcases pop_error_cases _ _ _ _ h2 with h3 | ⟨t3, h3⟩ <;>
            subst h3 <;> simp
        · have hpull : pullEntry t buf =
              some (entryStep name tag2 payload cur2) := by
            unfold pullEntry
            rw [if_neg hb, h1]
            dsimp only
            rw [h2]
          rw [hpull, Option.some.injEq] at h
          subst h
          unfold entryStep
          split_ifs
          · rcases payload with _ | ⟨d, rp⟩ <;> simp
          · simp
          · simp
          · simp
  · intro t fuel buf e rest h
    simp only [decodeSeq]
    rw [h]

/-- Witness for C8 amended: a concrete single-entry buffer pulls an `Ok`
entry, which is not the text-decoding error, and the decoded sequence
starts with that entry. -/
theorem calculate_all_no_text_validation_witness :
    (Except.ok ((⟨[0x62], CalcAllInner.Touch⟩ : CalcAllResponse),
        ([] : List Nat)) ≠
      Except.error (α := CalcAllResponse × List Nat) Error.Utf8) ∧
    decodeSeq false 1 [0x71, 1, 0x62, 0x7c, 0x00] =
      [.ok ⟨[0x62], .Touch⟩] :=
  ⟨calculate_all_no_text_validation.1 false [0x71, 1, 0x62, 0x7c, 0x00] _ rfl,
    (calculate_all_no_text_validation.2 false 0 [0x71, 1, 0x62, 0x7c, 0x00]
      ⟨[0x62], .Touch⟩ [] rfl).trans rfl⟩

/-- A number below `10 ^ d` has at most `max 1 d` decimal digits. -/
theorem toDigits_length_le :
    ∀ (d n : Nat), n < 10 ^ d → (toDigits n).length ≤ max 1 d := by
  intro d
  induction d with
  | zero =>
    intro n hn
    rw [pow_zero] at hn
    have hn0 : n = 0 := by omega
    subst hn0
    rw [toDigits]
    simp
  | succ d ih =>
    intro n hn
    rw [toDigits]
    split_ifs with h10
    · simp
    · rw [List.length_append]
      simp only [List.length_cons, List.length_nil]
      have hdiv : n / 10 < 10 ^ d := by
        rw [pow_succ'] at hn
        exact Nat.div_lt_of_lt_mul hn
      have hlen := ih (n / 10) hdiv
      have hd1 : 1 ≤ d := by
        by_contra hd0
        have hd : d = 0 := by omega
        subst hd
        rw [pow_one] at hn
        omega
      rw [Nat.max_eq_right hd1] at hlen
      rw [Nat.max_eq_right (by omega : 1 ≤ d + 1)]
      omega

/-- A string's length is the length of its character data. -/
theorem string_length_eq_data (s : String) : s.length = s.data.length := rfl

/-- Zero padding yields the larger of the requested width and the
rendered length. -/
theorem zeroPadStr_length (s : String) (w : Nat) :
    (zeroPadStr s w).length = max w s.length := by
  unfold zeroPadStr
  split_ifs with h
  · rw [string_length_eq_data, string_length_eq_data] at *
    show (List.replicate (w - s.data.length) '0' ++ s.data).length = _
    rw [List.length_append, List.length_replicate,
      Nat.max_eq_left (by omega)]
    omega
  · rw [Nat.max_eq_right (by omega)]

/-- C9 counterexample: at digit count 10 the `u32` power `10 ^ 10`
overflows (wrapping to `1410065408`), so the formatted string for response
`1500000000` is `"0089934592"` — not the decimal rendering of
`1500000000 % 10 ^ 10` zero-padded to 10 characters, which is
`"1500000000"`. -/
theorem fmtResponse_overflow_counterexample :
    fmtResponse 10 1500000000 ≠
      zeroPadStr (decimalStr (1500000000 % 10 ^ 10)) 10 ∧
    fmtResponse 10 1500000000 = "0089934592" ∧
    zeroPadStr (decimalStr (1500000000 % 10 ^ 10)) 10 = "1500000000" := by
  have hsmall : toDigits 89934592 = ['8', '9', '9', '3', '4', '5', '9', '2'] := by
    rw [toDigits, toDigits, toDigits, toDigits, toDigits, toDigits, toDigits,
      toDigits]
    norm_num [digitChar]
  have hbig : toDigits 1500000000 =
      ['1', '5', '0', '0', '0', '0', '0', '0', '0', '0'] := by
    rw [toDigits, toDigits, toDigits, toDigits, toDigits, toDigits, toDigits,
      toDigits, toDigits, toDigits]
    norm_num [digitChar]
  have hfmt : fmtResponse 10 1500000000 = "0089934592" := by
    unfold fmtResponse
    norm_num
    rw [show decimalStr 89934592 = ⟨toDigits 89934592⟩ from rfl, hsmall]
    simp [zeroPadStr, String.length]
  have hspec : zeroPadStr (decimalStr (1500000000 % 10 ^ 10)) 10 =
      "1500000000" := by
    norm_num
    rw [show decimalStr 1500000000 = ⟨toDigits 1500000000⟩ from rfl, hbig]
    simp [zeroPadStr, String.length]
  refine ⟨?_, hfmt, hspec⟩
  rw [hfmt, hspec]
  decide

/-- C9 amended: for digit counts `1 ≤ d ≤ 9` (so that the `u32` power
`10 ^ d` cannot overflow) and every response value, the formatted OTP
string is the decimal rendering of the response modulo `10 ^ d`,
left-padded with zeros to exactly `d` characters. -/
theorem fmtResponse_spec (d r : Nat) (hd1 : 1 ≤ d) (hd9 : d ≤ 9) :
    fmtResponse d r = zeroPadStr (decimalStr (r % 10 ^ d)) d ∧
    (fmtResponse d r).length = d := by
  have hpow : (10 : Nat) ^ d % 2 ^ 32 = 10 ^ d := by
    apply Nat.mod_eq_of_lt
    calc (10 : Nat) ^ d ≤ 10 ^ 9 := Nat.pow_le_pow_right (by norm_num) hd9
    _ < 2 ^ 32 := by norm_num
  have heq : fmtResponse d r = zeroPadStr (decimalStr (r % 10 ^ d)) d := by
    unfold fmtResponse
    rw [hpow]
  refine ⟨heq, ?_⟩
  rw [heq]
  have hmod : r % 10 ^ d < 10 ^ d := Nat.mod_lt _ (pow_pos (by norm_num) d)
  have hlen : (decimalStr (r % 10 ^ d)).length ≤ d := by
    have h := toDigits_length_le d (r % 10 ^ d) hmod
    rw [Nat.max_eq_right hd1] at h
    exact h
  rw [zeroPadStr_length, Nat.max_eq_left hlen]

/-- Witness for C9 amended: response `1234` with 6 digits formats as
`"001234"`, the decimal of `1234 % 10 ^ 6` padded to exactly 6 characters. -/
theorem fmtResponse_spec_witness :
    fmtResponse 6 1234 = zeroPadStr (decimalStr (1234 % 10 ^ 6)) 6 ∧
    (fmtResponse 6 1234).length = 6 ∧
    fmtResponse 6 1234 = "001234" := by
  obtain ⟨h1, h2⟩ := fmtResponse_spec 6 1234 (by norm_num) (by norm_num)
  refine ⟨h1, h2, ?_⟩
  have hdig : toDigits 1234 = ['1', '2', '3', '4'] := by
    rw [toDigits, toDigits, toDigits, toDigits]
    norm_num [digitChar]
  rw [h1]
  norm_num
  rw [show decimalStr 1234 = ⟨toDigits 1234⟩ from rfl, hdig]
  simp [zeroPadStr, String.length]
